import Mathlib

set_option linter.unusedVariables false

/-!
# Verification of the WAV streaming playback program (`src/main.rs`)

Shallow embedding of the playback-relevant parts of `main`:

* decoding of the 44-byte WAV header (lines 163-179), with the
  `str::from_utf8(..).unwrap()` panics modelled as `Option.none`;
* the I2S driver configuration built from compile-time constants
  (lines 41-43 and 112-129);
* the chunked transfer loop (lines 221-242), modelled three ways that
  all mirror the same source loop:
  - over a file (byte list) with an explicit read cursor (`runLoopFile`),
  - over a list of read results with the reused 1024-byte buffer made
    explicit (`runLoopBuffer`),
  - over a list of read/write step results that may fail
    (`runLoopFaults`), to reason about the abort paths;
* the pre-loop seek/timing-read sequence (lines 199-232) and the event
  trace of one run of `main` (`mainTrace`).

Bytes are `Nat` (values 0-255), machine integers are `Nat` (the decoded
`u32`/`u16` values are below their bounds by construction of the
little-endian decode).
-/

namespace PlayWav

/-- Little-endian decode of two bytes at offset `off`, mirroring
`u16::from_le_bytes(header[off..off+2].try_into().unwrap())`. Out-of-range
offsets read 0, matching the zero-initialised `[0u8; 44]` header buffer. -/
def u16leAt (h : List Nat) (off : Nat) : Nat :=
  h.getD off 0 + 256 * h.getD (off + 1) 0

/-- Little-endian decode of four bytes at offset `off`, mirroring
`u32::from_le_bytes(header[off..off+4].try_into().unwrap())`. -/
def u32leAt (h : List Nat) (off : Nat) : Nat :=
  h.getD off 0 + 256 * h.getD (off + 1) 0 + 65536 * h.getD (off + 2) 0 +
    16777216 * h.getD (off + 3) 0

/-- The byte slice `&h[start..start+len]`. -/
def slice (h : List Nat) (start len : Nat) : List Nat :=
  (h.drop start).take len

/-- A UTF-8 continuation byte (`0x80..=0xBF`). -/
def utf8Cont (b : Nat) : Bool := 128 ≤ b && b ≤ 191

/-- UTF-8 validity of a byte sequence, the check performed by
`std::str::from_utf8`: ASCII, and 2/3/4-byte sequences with the standard
exclusions (no overlong forms, no surrogates, nothing above U+10FFFF). -/
def utf8Valid : List Nat → Bool
  | [] => true
  | b :: rest =>
    if b ≤ 127 then utf8Valid rest
    else if b < 194 then false
    else if b ≤ 223 then
      match rest with
      | b1 :: rest2 => utf8Cont b1 && utf8Valid rest2
      | [] => false
    else if b ≤ 239 then
      match rest with
      | b1 :: b2 :: rest2 =>
        (if b = 224 then decide (160 ≤ b1) && decide (b1 ≤ 191)
         else if b = 237 then decide (128 ≤ b1) && decide (b1 ≤ 159)
         else utf8Cont b1) && utf8Cont b2 && utf8Valid rest2
      | _ => false
    else if b ≤ 244 then
      match rest with
      | b1 :: b2 :: b3 :: rest2 =>
        (if b = 240 then decide (144 ≤ b1) && decide (b1 ≤ 191)
         else if b = 244 then decide (128 ≤ b1) && decide (b1 ≤ 143)
         else utf8Cont b1) && utf8Cont b2 && utf8Cont b3 && utf8Valid rest2
      | _ => false
    else false

/-- `std::str::from_utf8(bs)`, with `.unwrap()`'s panic on invalid UTF-8
modelled as `none`. The decoded value is kept as the byte list. -/
def strFromUtf8 (bs : List Nat) : Option (List Nat) :=
  if utf8Valid bs then some bs else none

/-- The thirteen values `main` decodes from the 44-byte header
(lines 167-179), with the source's local variable names. -/
structure WavHeader where
  riff_id : List Nat
  file_size : Nat
  file_type : List Nat
  chunk_format : List Nat
  size_of_format_section : Nat
  format : Nat
  num_of_channels : Nat
  sampling_rate : Nat
  byte_rate : Nat
  block_align : Nat
  bits_per_sample : Nat
  data_section_id : List Nat
  size_of_data : Nat
deriving DecidableEq

/-- The header decode sequence of lines 167-179, in source order. `none`
models a panic at one of the four `str::from_utf8(..).unwrap()` calls; the
integer fields are decoded unconditionally, with no validation of any
value and no comparison of the tag bytes against expected tags. -/
def decodeHeader (header : List Nat) : Option WavHeader := do
  let riff_id ← strFromUtf8 (slice header 0 4)
  let file_size := u32leAt header 4
  let file_type ← strFromUtf8 (slice header 8 4)
  let chunk_format ← strFromUtf8 (slice header 12 4)
  let size_of_format_section := u32leAt header 16
  let format := u16leAt header 20
  let num_of_channels := u16leAt header 22
  let sampling_rate := u32leAt header 24
  let byte_rate := u32leAt header 28
  let block_align := u16leAt header 32
  let bits_per_sample := u16leAt header 34
  let data_section_id ← strFromUtf8 (slice header 36 4)
  let size_of_data := u32leAt header 40
  pure ⟨riff_id, file_size, file_type, chunk_format, size_of_format_section, format,
        num_of_channels, sampling_rate, byte_rate, block_align, bits_per_sample,
        data_section_id, size_of_data⟩

/-- The ASCII bytes of the tag `"RIFF"`. -/
def riffTag : List Nat := [82, 73, 70, 70]

/-- The ASCII bytes of the tag `"WAVE"`. -/
def waveTag : List Nat := [87, 65, 86, 69]

/-- The ASCII bytes of the tag `"fmt "`. -/
def fmtTag : List Nat := [102, 109, 116, 32]

/-- The ASCII bytes of the tag `"data"`. -/
def dataTag : List Nat := [100, 97, 116, 97]

/-- Little-endian encoding of a `u32` value. -/
def u32ToLe (n : Nat) : List Nat :=
  [n % 256, n / 256 % 256, n / 65536 % 256, n / 16777216 % 256]

/-- Little-endian encoding of a `u16` value. -/
def u16ToLe (n : Nat) : List Nat :=
  [n % 256, n / 256 % 256]

/-- A hand-built 44-byte header with correct tags, laid out per the WAV
byte-exact layout table (all integers little-endian). This is the test
harness side of the round-trip property, not program code. -/
def mkHeader (file_size size_of_format_section format num_of_channels
    sampling_rate byte_rate block_align bits_per_sample size_of_data : Nat) :
    List Nat :=
  riffTag ++ u32ToLe file_size ++ waveTag ++ fmtTag ++
    u32ToLe size_of_format_section ++ u16ToLe format ++ u16ToLe num_of_channels ++
    u32ToLe sampling_rate ++ u32ToLe byte_rate ++ u16ToLe block_align ++
    u16ToLe bits_per_sample ++ dataTag ++ u32ToLe size_of_data

/-- `BYTES_IN_HEADER` (line 43): the header occupies 44 bytes. -/
def BYTES_IN_HEADER : Nat := 44

/-- `SAMPLE_RATE_HZ` (line 42): the compile-time sample rate constant. -/
def SAMPLE_RATE_HZ : Nat := 44100

/-- `CHUNK_SIZE` (line 221): capacity of the transfer chunk buffer. -/
def CHUNK_SIZE : Nat := 1024

/-- `SlotMode` of the I2S slot configuration. -/
inductive SlotMode where
  | Mono
  | Stereo
deriving DecidableEq

/-- The parameters of the I2S standard-mode configuration that the audio
claims are about: clock from a sample rate, a data bit width and a slot
mode. -/
structure StdConfigParams where
  sample_rate_hz : Nat
  data_bit_width : Nat
  slot_mode : SlotMode
deriving DecidableEq

/-- The `i2s_config` built at lines 113-121: clock from the constant
`SAMPLE_RATE_HZ`, `DataBitWidth::Bits16`, `SlotMode::Mono`. No value from
the WAV header appears in it. -/
def i2s_config : StdConfigParams :=
  { sample_rate_hz := SAMPLE_RATE_HZ, data_bit_width := 16, slot_mode := SlotMode.Mono }

/-- `volume_mgr.read(wav_file, &mut buf)` on a file whose bytes are
`file`, read cursor at `pos`, buffer of capacity `cap`: returns the bytes
read (up to `cap`, truncated at end of file) and the advanced cursor. -/
def fileRead (file : List Nat) (pos cap : Nat) : List Nat × Nat :=
  let chunk := (file.drop pos).take cap
  (chunk, pos + chunk.length)

/-- The transfer loop of lines 234-242 over a file with an explicit read
cursor, fuel-bounded because the source loop need not terminate (a read
that returns 0 bytes leaves `data_read` unchanged). Returns the chunks
written to the I2S driver, the final `data_read`, and whether the loop
exited normally (`true`) or the fuel ran out mid-loop (`false`). -/
def runLoopFile (file : List Nat) (size_of_data : Nat) :
    Nat → Nat → Nat → List (List Nat) × Nat × Bool
  | 0, _, data_read =>
    if data_read < size_of_data then ([], data_read, false) else ([], data_read, true)
  | fuel2 + 1, pos, data_read =>
    if data_read < size_of_data then
      let rd := fileRead file pos CHUNK_SIZE
      let r := runLoopFile file size_of_data fuel2 rd.2 (data_read + rd.1.length)
      (rd.1 :: r.1, r.2)
    else ([], data_read, true)

/-- The transfer loop of lines 234-242 over a list of read results, with
the reused `buffer: [u8; CHUNK_SIZE]` made explicit: each read overwrites
the first `n` bytes of the buffer and `write_all(&buffer[..bytes_read])`
writes exactly that prefix. Fuel is the read-result list itself; `false`
means the result list ran out while the loop was still going. -/
def runLoopBuffer (size_of_data : Nat) :
    Nat → List Nat → List (List Nat) → List (List Nat) × Nat × Bool
  | data_read, buffer, reads =>
    if data_read < size_of_data then
      match reads with
      | [] => ([], data_read, false)
      | chunk :: rest =>
        let buffer2 := chunk ++ buffer.drop chunk.length
        let written := buffer2.take chunk.length
        let r := runLoopBuffer size_of_data (data_read + chunk.length) buffer2 rest
        (written :: r.1, r.2)
    else ([], data_read, true)

/-- The pre-loop sequence of lines 163-234 projected onto the byte stream:
read the 44-byte header from offset 0, seek to `BYTES_IN_HEADER`, do the
1024-byte timing read into `fake_buffer`, seek to `BYTES_IN_HEADER` again,
then run the transfer loop from that cursor. Returns the chunks streamed
to the I2S driver. -/
def playbackWrites (file : List Nat) (fuel : Nat) : List (List Nat) :=
  let hd := fileRead file 0 BYTES_IN_HEADER
  let size_of_data := u32leAt hd.1 40
  let posAfterSeek1 := BYTES_IN_HEADER
  let fake := fileRead file posAfterSeek1 CHUNK_SIZE
  let posAfterSeek2 := BYTES_IN_HEADER
  (runLoopFile file size_of_data fuel posAfterSeek2 0).1

/-- Observable actions of one run of `main`, in program order. -/
inductive Event where
  | createI2sDriver (cfg : StdConfigParams)
  | fileSeek (pos : Nat)
  | storageRead (n : Nat)
  | readFailed
  | txEnable
  | i2sWrite (n : Nat)
  | writeFailed
  | txDisable
deriving DecidableEq

/-- The event trace of one run of `main` with no storage or I2S faults:
the I2S driver is created (lines 112-129) before the file is even opened;
then the header is read and decoded (a decode `none`, i.e. a
`from_utf8(..).unwrap()` panic, ends the run); then seek, timing read,
seek, `tx_enable` (line 232), the transfer loop, and `tx_disable`
(line 244) only if the loop exited normally. -/
def mainTrace (file : List Nat) (fuel : Nat) : List Event :=
  Event.createI2sDriver i2s_config ::
    (let hd := fileRead file 0 BYTES_IN_HEADER
     Event.storageRead hd.1.length ::
       (match decodeHeader hd.1 with
        | none => []
        | some h =>
          let fake := fileRead file BYTES_IN_HEADER CHUNK_SIZE
          Event.fileSeek BYTES_IN_HEADER :: Event.storageRead fake.1.length ::
            Event.fileSeek BYTES_IN_HEADER :: Event.txEnable ::
              (let r := runLoopFile file h.size_of_data fuel BYTES_IN_HEADER 0
               (r.1.flatMap fun c => [Event.storageRead c.length, Event.i2sWrite c.length]) ++
                 (if r.2.2 then [Event.txDisable] else []))))

/-- The outcome of one iteration of the transfer loop when storage reads
and I2S writes may fail: the read errors (`readErr`), the read succeeds
with `chunk` but the write errors or times out (`writeErr`), or both
succeed (`ok`). -/
inductive StepRes where
  | readErr
  | writeErr (chunk : List Nat)
  | ok (chunk : List Nat)
deriving DecidableEq

/-- How the transfer loop ended: normally (`finished`, `data_read`
reached `size_of_data`), by an error propagated with `?` (`aborted`), or
still looping when the step list ran out (`running`). -/
inductive LoopExit where
  | finished
  | aborted
  | running
deriving DecidableEq

/-- The transfer loop of lines 234-242 with faults: a failed read or a
failed `write_all` is converted by `map_err`/`?` into an early return
from `main`, so the loop stops at the first fault. Returns the events of
the loop body and how the loop ended. -/
def runLoopFaults (size_of_data : Nat) :
    Nat → List StepRes → List Event × LoopExit
  | data_read, steps =>
    if data_read < size_of_data then
      match steps with
      | [] => ([], LoopExit.running)
      | StepRes.readErr :: _ => ([Event.readFailed], LoopExit.aborted)
      | StepRes.writeErr chunk :: _ =>
        ([Event.storageRead chunk.length, Event.writeFailed], LoopExit.aborted)
      | StepRes.ok chunk :: rest =>
        let r := runLoopFaults size_of_data (data_read + chunk.length) rest
        (Event.storageRead chunk.length :: Event.i2sWrite chunk.length :: r.1, r.2)
    else ([], LoopExit.finished)

/-- Lines 232-244 with faults: `tx_enable`, the transfer loop, and
`tx_disable` only when the loop exits normally — on an abort the `?`
operator returns from `main` before line 244 is reached. -/
def playbackFaults (size_of_data : Nat) (steps : List StepRes) :
    List Event × LoopExit :=
  let r := runLoopFaults size_of_data 0 steps
  (Event.txEnable :: r.1 ++
    (if r.2 = LoopExit.finished then [Event.txDisable] else []), r.2)

/-- The write sizes the loop produces when the source delivers exactly
`size_of_data` bytes: full 1024-byte chunks and a final short chunk of
`size_of_data % 1024` bytes (or a full chunk when the size divides
evenly). -/
def writeSizes (s : Nat) : List Nat :=
  List.replicate (s / CHUNK_SIZE) CHUNK_SIZE ++
    (if s % CHUNK_SIZE = 0 then [] else [s % CHUNK_SIZE])

/-! ## Concrete inputs used by witnesses and counterexamples -/

/-- A 44-byte header whose `riff_id` bytes spell `"XIFF"` (one corrupted
byte) while everything else is well-formed and `size_of_data = 0`. -/
def xiffHeader : List Nat :=
  [88, 73, 70, 70] ++ (mkHeader 36 16 1 1 44100 88200 2 16 0).drop 4

/-- A complete little file: well-formed header declaring a 22050 Hz sample
rate (unsupported by the MAX98357A) and 4 data bytes. -/
def file22050 : List Nat := mkHeader 44 16 1 1 22050 44100 2 16 4 ++ [9, 9, 0, 0]

/-- A complete little file: well-formed header declaring an 8000 Hz sample
rate and 4 data bytes. -/
def file8000 : List Nat := mkHeader 44 16 1 1 8000 16000 2 16 4 ++ [5, 5, 5, 5]

/-- A complete little file: well-formed header at 44100 Hz with 2 data
bytes. -/
def fileTwoBytes : List Nat := mkHeader 44 16 1 1 44100 88200 2 16 2 ++ [11, 22]

/-- A complete little file: well-formed header at 44100 Hz mono with 4
data bytes. -/
def fileMono44k : List Nat := mkHeader 44 16 1 1 44100 88200 2 16 4 ++ [1, 2, 3, 4]

/-- The header all of whose 44 bytes are zero, and the `WavHeader` it
decodes to (the four tag regions `[0,0,0,0]` are valid UTF-8). -/
def zeroWavHeader : WavHeader :=
  ⟨[0, 0, 0, 0], 0, [0, 0, 0, 0], [0, 0, 0, 0], 0, 0, 0, 0, 0, 0, 0, [0, 0, 0, 0], 0⟩

/-! ## Header decoding: general shape -/

/-- Closed form of `decodeHeader`: the four `from_utf8(..).unwrap()` calls
are the only way the decode can fail, and every field is the raw slice or
little-endian value at its offset. -/
theorem decodeHeader_eq (header : List Nat) :
    decodeHeader header =
      if utf8Valid (slice header 0 4) && utf8Valid (slice header 8 4) &&
          utf8Valid (slice header 12 4) && utf8Valid (slice header 36 4) then
        some ⟨slice header 0 4, u32leAt header 4, slice header 8 4, slice header 12 4,
              u32leAt header 16, u16leAt header 20, u16leAt header 22, u32leAt header 24,
              u32leAt header 28, u16leAt header 32, u16leAt header 34, slice header 36 4,
              u32leAt header 40⟩
      else none := by
  by_cases h1 : utf8Valid (slice header 0 4) <;>
    by_cases h2 : utf8Valid (slice header 8 4) <;>
      by_cases h3 : utf8Valid (slice header 12 4) <;>
        by_cases h4 : utf8Valid (slice header 36 4) <;>
          simp [decodeHeader, strFromUtf8, h1, h2, h3, h4]

/-- Claim C8: header decoding is not total over arbitrary 44-byte inputs:
it aborts (models the `str::from_utf8(..).unwrap()` panic) exactly when one
of the four tag regions (bytes 0..4, 8..12, 12..16, 36..40) is not valid
UTF-8, and whenever it succeeds every other field is decoded
unconditionally as the raw little-endian value at its offset, with no
validation of any value. -/
theorem decode_panics_iff_invalid_utf8 (header : List Nat) :
    (decodeHeader header = none ↔
      ¬(utf8Valid (slice header 0 4) = true ∧ utf8Valid (slice header 8 4) = true ∧
        utf8Valid (slice header 12 4) = true ∧ utf8Valid (slice header 36 4) = true)) ∧
    (∀ h, decodeHeader header = some h →
      h.riff_id = slice header 0 4 ∧ h.file_size = u32leAt header 4 ∧
      h.file_type = slice header 8 4 ∧ h.chunk_format = slice header 12 4 ∧
      h.size_of_format_section = u32leAt header 16 ∧ h.format = u16leAt header 20 ∧
      h.num_of_channels = u16leAt header 22 ∧ h.sampling_rate = u32leAt header 24 ∧
      h.byte_rate = u32leAt header 28 ∧ h.block_align = u16leAt header 32 ∧
      h.bits_per_sample = u16leAt header 34 ∧ h.data_section_id = slice header 36 4 ∧
      h.size_of_data = u32leAt header 40) := by
  rw [decodeHeader_eq]
  by_cases h1 : utf8Valid (slice header 0 4) <;>
    by_cases h2 : utf8Valid (slice header 8 4) <;>
      by_cases h3 : utf8Valid (slice header 12 4) <;>
        by_cases h4 : utf8Valid (slice header 36 4) <;>
          simp [h1, h2, h3, h4]

/-- Witness for C8: the all-zero 44-byte header decodes (NUL tag regions
are valid UTF-8) and its fields are the raw values at their offsets. -/
theorem decode_panics_iff_invalid_utf8_witness :
    zeroWavHeader.sampling_rate = u32leAt (List.replicate 44 0) 24 ∧
    zeroWavHeader.size_of_data = u32leAt (List.replicate 44 0) 40 :=
  ⟨((decode_panics_iff_invalid_utf8 (List.replicate 44 0)).2 zeroWavHeader
      (by decide)).2.2.2.2.2.2.2.1,
   ((decode_panics_iff_invalid_utf8 (List.replicate 44 0)).2 zeroWavHeader
      (by decide)).2.2.2.2.2.2.2.2.2.2.2.2⟩

/-! ## Claim C2: tag mismatches are not detected -/

/-- Counterexample to C2: a header whose `riff_id` is `"XIFF"`, not
`"RIFF"`, decodes successfully — there is no `BadTag` failure anywhere in
the code — and playback proceeds (`tx_enable` is reached). -/
theorem bad_riff_tag_decodes :
    slice xiffHeader 0 4 ≠ riffTag ∧ (decodeHeader xiffHeader).isSome = true ∧
    Event.txEnable ∈ mainTrace xiffHeader 1 := by decide

/-- Claim C2 (amended): the code never compares the tag bytes against
`"RIFF"`/`"WAVE"`/`"fmt "`/`"data"`: any 44-byte input whose four tag
regions are valid UTF-8 decodes successfully, whatever the tag values. -/
theorem decode_ignores_tag_values (header : List Nat)
    (h1 : utf8Valid (slice header 0 4) = true) (h2 : utf8Valid (slice header 8 4) = true)
    (h3 : utf8Valid (slice header 12 4) = true)
    (h4 : utf8Valid (slice header 36 4) = true) :
    (decodeHeader header).isSome = true := by
  simp [decodeHeader_eq, h1, h2, h3, h4]

/-- Witness for the amended C2, at the `"XIFF"` header. -/
theorem decode_ignores_tag_values_witness :
    (decodeHeader xiffHeader).isSome = true :=
  decode_ignores_tag_values xiffHeader (by decide) (by decide) (by decide) (by decide)

/-! ## Claim C5: little-endian round-trip -/

/-- Claim C5: for every hand-built 44-byte header with correct tags
(fields, in order: `a` = file_size, `b` = size_of_format_section,
`c` = format, `d` = num_of_channels, `e` = sampling_rate, `f` = byte_rate,
`g` = block_align, `h` = bits_per_sample, `i` = size_of_data, each within
its `u32`/`u16` range), decoding recovers every field exactly: all
multi-byte integers are read little-endian from the offsets of the layout
table. -/
theorem header_roundtrip (a b c d e f g h i : Nat)
    (ha : a < 4294967296) (hb : b < 4294967296) (hc : c < 65536) (hd : d < 65536)
    (he : e < 4294967296) (hf : f < 4294967296) (hg : g < 65536) (hh : h < 65536)
    (hi : i < 4294967296) :
    decodeHeader (mkHeader a b c d e f g h i) =
      some ⟨riffTag, a, waveTag, fmtTag, b, c, d, e, f, g, h, dataTag, i⟩ := by
  have hflat : mkHeader a b c d e f g h i =
      [82, 73, 70, 70,
       a % 256, a / 256 % 256, a / 65536 % 256, a / 16777216 % 256,
       87, 65, 86, 69, 102, 109, 116, 32,
       b % 256, b / 256 % 256, b / 65536 % 256, b / 16777216 % 256,
       c % 256, c / 256 % 256, d % 256, d / 256 % 256,
       e % 256, e / 256 % 256, e / 65536 % 256, e / 16777216 % 256,
       f % 256, f / 256 % 256, f / 65536 % 256, f / 16777216 % 256,
       g % 256, g / 256 % 256, h % 256, h / 256 % 256,
       100, 97, 116, 97,
       i % 256, i / 256 % 256, i / 65536 % 256, i / 16777216 % 256] := by
    simp [mkHeader, riffTag, waveTag, fmtTag, dataTag, u32ToLe, u16ToLe]
  have t1 : utf8Valid [82, 73, 70, 70] = true := rfl
  have t2 : utf8Valid [87, 65, 86, 69] = true := rfl
  have t3 : utf8Valid [102, 109, 116, 32] = true := rfl
  have t4 : utf8Valid [100, 97, 116, 97] = true := rfl
  rw [decodeHeader_eq, hflat]
  simp [slice, u32leAt, u16leAt, t1, t2, t3, t4, riffTag, waveTag, fmtTag, dataTag,
    WavHeader.mk.injEq]
  omega

/-- Witness for C5, at the spec's concrete scenario (44100 Hz mono,
2500 data bytes). -/
theorem header_roundtrip_witness :
    decodeHeader (mkHeader 2536 16 1 1 44100 88200 2 16 2500) =
      some ⟨riffTag, 2536, waveTag, fmtTag, 16, 1, 1, 44100, 88200, 2, 16, dataTag, 2500⟩ :=
  header_roundtrip 2536 16 1 1 44100 88200 2 16 2500 (by decide) (by decide) (by decide)
    (by decide) (by decide) (by decide) (by decide) (by decide) (by decide)

/-! ## `writeSizes` facts -/

theorem writeSizes_small (s : Nat) (h0 : 0 < s) (h1 : s ≤ CHUNK_SIZE) :
    writeSizes s = [s] := by
  rcases lt_or_eq_of_le h1 with hlt | heq
  · have hd : s / CHUNK_SIZE = 0 := Nat.div_eq_of_lt hlt
    have hm : s % CHUNK_SIZE = s := Nat.mod_eq_of_lt hlt
    have hne : ¬s % CHUNK_SIZE = 0 := by omega
    simp [writeSizes, hd, hm, hne]
    omega
  · subst heq
    decide

theorem writeSizes_big (s : Nat) (h : CHUNK_SIZE < s) :
    writeSizes s = CHUNK_SIZE :: writeSizes (s - CHUNK_SIZE) := by
  have hd : s / CHUNK_SIZE = (s - CHUNK_SIZE) / CHUNK_SIZE + 1 := by
    simp only [CHUNK_SIZE] at h ⊢; omega
  have hm : s % CHUNK_SIZE = (s - CHUNK_SIZE) % CHUNK_SIZE := by
    simp only [CHUNK_SIZE] at h ⊢; omega
  simp [writeSizes, hd, hm, List.replicate_succ]

theorem writeSizes_sum (s : Nat) : (writeSizes s).sum = s := by
  by_cases hm : s % CHUNK_SIZE = 0 <;>
    simp [writeSizes, hm, List.sum_replicate, smul_eq_mul] <;>
      (simp only [CHUNK_SIZE] at *; omega)

theorem writeSizes_length (s : Nat) :
    (writeSizes s).length = (s + (CHUNK_SIZE - 1)) / CHUNK_SIZE := by
  by_cases hm : s % CHUNK_SIZE = 0 <;>
    simp [writeSizes, hm] <;>
      (simp only [CHUNK_SIZE] at *; omega)

theorem writeSizes_last (s : Nat) (h : s ≠ 0) :
    (writeSizes s).getLast? =
      some (if s % CHUNK_SIZE = 0 then CHUNK_SIZE else s % CHUNK_SIZE) := by
  by_cases hm : s % CHUNK_SIZE = 0
  · have hk : s / CHUNK_SIZE = (s / CHUNK_SIZE - 1) + 1 := by
      simp only [CHUNK_SIZE] at *; omega
    simp only [writeSizes, hm, if_pos, List.append_nil, if_true]
    rw [hk, List.replicate_succ']
    simp [List.getLast?_concat]
  · simp [writeSizes, hm, List.getLast?_concat]

theorem writeSizes_le (s : Nat) : ∀ x ∈ writeSizes s, x ≤ CHUNK_SIZE := by
  intro x hx
  by_cases hm : s % CHUNK_SIZE = 0 <;>
    simp [writeSizes, hm, List.mem_replicate] at hx
  · omega
  · rcases hx with ⟨-, hx⟩ | hx
    · omega
    · subst hx
      simp only [CHUNK_SIZE]
      omega

/-! ## Claim C1: the transfer loop on an exact-length file -/

/-- Invariant lemma for the transfer loop on a file whose data section is
exactly `s` bytes long: entering an iteration with the cursor at
`44 + d` and `data_read = d`, with enough fuel, the loop finishes with
`data_read = s` and writes of sizes `writeSizes (s - d)`. -/
theorem runLoopFile_exact_go (file : List Nat) (s : Nat)
    (hfile : file.length = 44 + s) :
    ∀ fuel d, d ≤ s → s - d ≤ fuel * CHUNK_SIZE →
      (runLoopFile file s fuel (44 + d) d).1.map List.length = writeSizes (s - d) ∧
      (runLoopFile file s fuel (44 + d) d).2.1 = s ∧
      (runLoopFile file s fuel (44 + d) d).2.2 = true := by
  intro fuel
  induction fuel with
  | zero =>
    intro d hd hfuel
    have hds : d = s := by omega
    subst hds
    simp [runLoopFile, writeSizes]
  | succ fuel ih =>
    intro d hd hfuel
    by_cases hlt : d < s
    · have hchunk : ((file.drop (44 + d)).take CHUNK_SIZE).length =
          min CHUNK_SIZE (s - d) := by
        simp [List.length_take, List.length_drop, hfile]
        omega
      have hrec := ih (d + min CHUNK_SIZE (s - d))
        (by simp only [CHUNK_SIZE] at *; omega)
        (by simp only [CHUNK_SIZE] at *; omega)
      rw [runLoopFile, if_pos hlt]
      simp only [fileRead, hchunk]
      have hpos : 44 + d + min CHUNK_SIZE (s - d) = 44 + (d + min CHUNK_SIZE (s - d)) := by
        omega
      rw [hpos]
      refine ⟨?_, hrec.2.1, hrec.2.2⟩
      simp only [List.map_cons, hchunk, hrec.1]
      by_cases hsm : s - d ≤ CHUNK_SIZE
      · have h1 : min CHUNK_SIZE (s - d) = s - d := by omega
        have h2 : s - (d + (s - d)) = 0 := by omega
        rw [h1, h2]
        rw [writeSizes_small (s - d) (by omega) hsm]
        simp [writeSizes]
      · have h1 : min CHUNK_SIZE (s - d) = CHUNK_SIZE := by omega
        have h2 : s - (d + CHUNK_SIZE) = (s - d) - CHUNK_SIZE := by omega
        rw [h1, h2, writeSizes_big (s - d) (by omega)]
    · have hds : d = s := by omega
      subst hds
      simp [runLoopFile, writeSizes]

/-- Claim C1 (amended): when the file ends exactly at offset `44 + s`
(so every read returns `min 1024 (s - data_read)` bytes), the transfer
loop started at offset 44 exits normally with `data_read = s` exactly,
performing `⌈s / 1024⌉` writes whose sizes sum to `s`, each at most 1024,
the last being `s % 1024` (or 1024 when `s % 1024 = 0`). -/
theorem transfer_exact_file_write_sizes (file : List Nat) (s fuel : Nat)
    (hlen : file.length = 44 + s) (hfuel : s ≤ fuel * CHUNK_SIZE) :
    (runLoopFile file s fuel BYTES_IN_HEADER 0).1.map List.length = writeSizes s ∧
    (runLoopFile file s fuel BYTES_IN_HEADER 0).2.1 = s ∧
    (runLoopFile file s fuel BYTES_IN_HEADER 0).2.2 = true ∧
    (writeSizes s).sum = s ∧
    (writeSizes s).length = (s + (CHUNK_SIZE - 1)) / CHUNK_SIZE ∧
    (s ≠ 0 → (writeSizes s).getLast? =
      some (if s % CHUNK_SIZE = 0 then CHUNK_SIZE else s % CHUNK_SIZE)) ∧
    (∀ c ∈ (runLoopFile file s fuel BYTES_IN_HEADER 0).1, c.length ≤ CHUNK_SIZE) := by
  have hgo := runLoopFile_exact_go file s hlen fuel 0 (Nat.zero_le s) (by omega)
  have hbh : BYTES_IN_HEADER = 44 + 0 := rfl
  rw [hbh]
  refine ⟨hgo.1, hgo.2.1, hgo.2.2, writeSizes_sum s, writeSizes_length s,
    writeSizes_last s, ?_⟩
  intro c hc
  have : c.length ∈ (runLoopFile file s fuel (44 + 0) 0).1.map List.length :=
    List.mem_map_of_mem List.length hc
  rw [hgo.1] at this
  exact writeSizes_le _ c.length this

set_option maxRecDepth 40000 in
/-- Witness for the amended C1: the spec's concrete scenario, a data
section of exactly 2500 bytes, yields write sizes 1024, 1024, 452 and
cumulative total 2500. -/
theorem transfer_exact_file_write_sizes_witness :
    (runLoopFile (List.replicate 2544 0) 2500 3 BYTES_IN_HEADER 0).1.map List.length =
        [1024, 1024, 452] ∧
    (runLoopFile (List.replicate 2544 0) 2500 3 BYTES_IN_HEADER 0).2.1 = 2500 ∧
    (runLoopFile (List.replicate 2544 0) 2500 3 BYTES_IN_HEADER 0).2.2 = true := by
  have h := transfer_exact_file_write_sizes (List.replicate 2544 0) 2500 3
    (by rw [List.length_replicate]) (by decide)
  refine ⟨?_, h.2.1, h.2.2.1⟩
  rw [h.1]
  decide

set_option maxRecDepth 40000 in
/-- Counterexample to C1 as stated: with `size_of_data = 500` but a file
that keeps delivering bytes past the declared data section (data region
1024 bytes long), the single iteration reads 1024 bytes — more than
`min(1024, 500 - 0) = 500` — and the loop exits with `data_read = 1024`,
not 500, after one write of 1024 bytes instead of the claimed single
write of 500. -/
theorem transfer_overreads_on_long_file :
    (runLoopFile (List.replicate 1068 0) 500 2 BYTES_IN_HEADER 0).1.map List.length =
        [1024] ∧
    (runLoopFile (List.replicate 1068 0) 500 2 BYTES_IN_HEADER 0).2.1 = 1024 ∧
    (runLoopFile (List.replicate 1068 0) 500 2 BYTES_IN_HEADER 0).2.2 = true ∧
    ¬(1024 = 500) ∧ ¬(1024 ≤ min 1024 (500 - 0)) := by decide

/-! ## Claim C9: loop invariant over read results -/

/-- Invariant lemma for the buffered transfer loop: from any entry state
with `data_read < size_of_data + 1024` and all read results within the
buffer capacity, a normal exit writes back exactly the consumed read
chunks, and the final `data_read` is the entry value plus the bytes
written, at least `size_of_data` and short of it by less than one chunk. -/
theorem runLoopBuffer_go (s : Nat) (reads : List (List Nat)) :
    ∀ d buffer,
      (∀ c ∈ reads, c.length ≤ CHUNK_SIZE) → d < s + CHUNK_SIZE →
      (runLoopBuffer s d buffer reads).2.2 = true →
        (runLoopBuffer s d buffer reads).1 =
          reads.take (runLoopBuffer s d buffer reads).1.length ∧
        (runLoopBuffer s d buffer reads).2.1 =
          d + ((runLoopBuffer s d buffer reads).1.map List.length).sum ∧
        s ≤ (runLoopBuffer s d buffer reads).2.1 ∧
        (runLoopBuffer s d buffer reads).2.1 < s + CHUNK_SIZE := by
  induction reads with
  | nil =>
    intro d buffer hc hd hfin
    by_cases hlt : d < s
    · simp [runLoopBuffer, hlt] at hfin
    · simp [runLoopBuffer, hlt]
      omega
  | cons chunk rest ih =>
    intro d buffer hc hd hfin
    by_cases hlt : d < s
    · have hlen : chunk.length ≤ CHUNK_SIZE := hc chunk (by simp)
      have hrest : ∀ c ∈ rest, c.length ≤ CHUNK_SIZE := fun c h => hc c (by simp [h])
      have hd2 : d + chunk.length < s + CHUNK_SIZE := by omega
      simp only [runLoopBuffer, if_pos hlt] at hfin ⊢
      have ihr := ih (d + chunk.length) (chunk ++ buffer.drop chunk.length) hrest hd2 hfin
      have hwr : (chunk ++ buffer.drop chunk.length).take chunk.length = chunk :=
        List.take_left ..
      rw [hwr]
      refine ⟨?_, ?_, ?_, ihr.2.2.2⟩
      · rw [List.length_cons, List.take_succ_cons]
        exact congrArg (chunk :: ·) ihr.1
      · rw [List.map_cons, List.sum_cons]
        omega
      · omega
    · simp [runLoopBuffer, hlt]
      omega

/-- Claim C9: starting from `data_read = 0` with the zero-initialised
1024-byte buffer, every iteration begins only while `data_read <
size_of_data` and writes back exactly the bytes the read returned, so a
normal exit has written precisely the consumed read chunks, with total
bytes written equal to total bytes read, at least `size_of_data`, and
exceeding `size_of_data` by strictly less than 1024. -/
theorem loop_invariant_totals (s : Nat) (reads : List (List Nat))
    (hc : ∀ c ∈ reads, c.length ≤ CHUNK_SIZE)
    (hfin : (runLoopBuffer s 0 (List.replicate CHUNK_SIZE 0) reads).2.2 = true) :
    (runLoopBuffer s 0 (List.replicate CHUNK_SIZE 0) reads).1 =
      reads.take (runLoopBuffer s 0 (List.replicate CHUNK_SIZE 0) reads).1.length ∧
    (runLoopBuffer s 0 (List.replicate CHUNK_SIZE 0) reads).2.1 =
      ((runLoopBuffer s 0 (List.replicate CHUNK_SIZE 0) reads).1.map List.length).sum ∧
    s ≤ (runLoopBuffer s 0 (List.replicate CHUNK_SIZE 0) reads).2.1 ∧
    (runLoopBuffer s 0 (List.replicate CHUNK_SIZE 0) reads).2.1 < s + CHUNK_SIZE := by
  have h := runLoopBuffer_go s reads 0 (List.replicate CHUNK_SIZE 0) hc
    (by simp only [CHUNK_SIZE]; omega) hfin
  simpa using h

/-- Witness for C9, at `size_of_data = 1` and a single 2-byte read. -/
theorem loop_invariant_totals_witness :
    (runLoopBuffer 1 0 (List.replicate CHUNK_SIZE 0) [[7, 7]]).1 =
      [[7, 7]].take (runLoopBuffer 1 0 (List.replicate CHUNK_SIZE 0) [[7, 7]]).1.length ∧
    1 ≤ (runLoopBuffer 1 0 (List.replicate CHUNK_SIZE 0) [[7, 7]]).2.1 ∧
    (runLoopBuffer 1 0 (List.replicate CHUNK_SIZE 0) [[7, 7]]).2.1 < 1 + CHUNK_SIZE := by
  have h := loop_invariant_totals 1 [[7, 7]] (by decide) (by decide)
  exact ⟨h.1, h.2.2.1, h.2.2.2⟩

/-! ## Claim C6: a zero-byte read is not detected -/

/-- Counterexample to C6 as stated: with `size_of_data = 10`, a 3-byte
read followed by reads returning 0 bytes (source exhausted) does not
abort: each zero read is followed by a zero-length sink write and the
loop is still running (it never raises any end-of-file error). -/
theorem zero_read_not_eof_abort :
    playbackFaults 10 [StepRes.ok [1, 2, 3], StepRes.ok [], StepRes.ok []] =
      ([Event.txEnable, Event.storageRead 3, Event.i2sWrite 3,
        Event.storageRead 0, Event.i2sWrite 0, Event.storageRead 0, Event.i2sWrite 0],
       LoopExit.running) ∧
    ¬(playbackFaults 10 [StepRes.ok [1, 2, 3], StepRes.ok [], StepRes.ok []]).2 =
        LoopExit.aborted := by decide

/-- Claim C6 (amended): a read that returns 0 bytes while `data_read <
size_of_data` is not treated as an error: the iteration writes 0 bytes to
the sink and continues with `data_read` unchanged, so a source that keeps
returning 0 leaves the loop running forever. -/
theorem zero_read_keeps_looping (s d : Nat) (rest : List StepRes) (h : d < s) :
    (runLoopFaults s d (StepRes.ok [] :: rest)).1 =
      Event.storageRead 0 :: Event.i2sWrite 0 :: (runLoopFaults s d rest).1 ∧
    (runLoopFaults s d (StepRes.ok [] :: rest)).2 = (runLoopFaults s d rest).2 ∧
    (∀ k, (runLoopFaults s d (List.replicate k (StepRes.ok []))).2 =
      LoopExit.running) := by
  refine ⟨by simp [runLoopFaults, h], by simp [runLoopFaults, h], ?_⟩
  intro k
  induction k with
  | zero => simp [runLoopFaults, h]
  | succ k ih => simp [runLoopFaults, h, List.replicate_succ, ih]

/-- Witness for the amended C6. -/
theorem zero_read_keeps_looping_witness :
    (runLoopFaults 5 0 [StepRes.ok []]).1 =
      [Event.storageRead 0, Event.i2sWrite 0] ∧
    (runLoopFaults 5 0 (List.replicate 3 (StepRes.ok []))).2 = LoopExit.running := by
  have h := zero_read_keeps_looping 5 0 [] (by decide)
  refine ⟨?_, h.2.2 3⟩
  rw [h.1]
  decide

/-! ## Claim C7: abort paths never disable the sink -/

/-- The transfer loop itself never emits `tx_disable`. -/
theorem runLoopFaults_no_disable (s : Nat) (steps : List StepRes) :
    ∀ d, Event.txDisable ∉ (runLoopFaults s d steps).1 := by
  induction steps with
  | nil =>
    intro d
    by_cases h : d < s <;> simp [runLoopFaults, h]
  | cons st rest ih =>
    intro d
    by_cases h : d < s
    · cases st with
      | readErr => simp [runLoopFaults, h]
      | writeErr chunk => simp [runLoopFaults, h]
      | ok chunk => simpa [runLoopFaults, h] using ih (d + chunk.length)
    · cases st <;> simp [runLoopFaults, h]

/-- Claim C7 (amended): on every aborted run (storage read error or sink
write error mid-stream) the error propagates with `?` straight out of
`main`, skipping line 244 — the sink's transmit path is NOT disabled: no
`tx_disable` occurs in the trace. (`tx_disable` runs only after a normal
loop exit, and even there its failure would panic via `.unwrap()`, not be
swallowed.) -/
theorem abort_skips_tx_disable (s : Nat) (steps : List StepRes)
    (h : (playbackFaults s steps).2 = LoopExit.aborted) :
    Event.txDisable ∉ (playbackFaults s steps).1 := by
  have hnd := runLoopFaults_no_disable s steps 0
  have hr : (runLoopFaults s 0 steps).2 = LoopExit.aborted := h
  simp only [playbackFaults, hr]
  simp [hnd]

/-- Witness for the amended C7: a read error on the very first iteration. -/
theorem abort_skips_tx_disable_witness :
    (playbackFaults 1 [StepRes.readErr]).2 = LoopExit.aborted ∧
    Event.txDisable ∉ (playbackFaults 1 [StepRes.readErr]).1 :=
  ⟨by decide, abort_skips_tx_disable 1 [StepRes.readErr] (by decide)⟩

/-- Counterexample to C7 as stated: a mid-stream read error with 2500
bytes still to transfer aborts the session with a trace that contains no
`tx_disable` at all — the engine does not attempt to disable the sink
before surfacing the error. -/
theorem abort_skips_tx_disable_concrete :
    (playbackFaults 2500 [StepRes.readErr]).1 = [Event.txEnable, Event.readFailed] ∧
    (playbackFaults 2500 [StepRes.readErr]).2 = LoopExit.aborted ∧
    ¬Event.txDisable ∈ (playbackFaults 2500 [StepRes.readErr]).1 := by decide

/-! ## Claim C3: there is no feasibility check -/

/-- Counterexample to C3 as stated: a file declaring 22050 Hz — outside
the MAX98357A's supported enumeration — does not fail: the I2S driver is
created (first event of the run, with the constant config) and
`tx_enable` is invoked, so the configure and enable counts are not
zero. -/
theorem unsupported_rate_still_plays :
    Option.map WavHeader.sampling_rate
        (decodeHeader (fileRead file22050 0 BYTES_IN_HEADER).1) = some 22050 ∧
    22050 ∉ ([8000, 16000, 32000, 44100, 48000, 88200, 96000] : List Nat) ∧
    (mainTrace file22050 1).head? = some (Event.createI2sDriver i2s_config) ∧
    Event.txEnable ∈ mainTrace file22050 1 := by decide

/-- Claim C3 (amended): the engine performs no feasibility check at all:
the I2S driver is created with the constant configuration as the very
first action, before the header is even read, and for every file whose
header decodes — whatever its sample rate, bit depth or channel count —
`tx_enable` is invoked as well. -/
theorem no_feasibility_check (file : List Nat) (fuel : Nat) (h : WavHeader)
    (hdec : decodeHeader (fileRead file 0 BYTES_IN_HEADER).1 = some h) :
    (mainTrace file fuel).head? = some (Event.createI2sDriver i2s_config) ∧
    Event.txEnable ∈ mainTrace file fuel := by
  refine ⟨rfl, ?_⟩
  simp only [mainTrace, hdec]
  simp [List.mem_cons]

/-- Witness for the amended C3, at a 44100 Hz mono file. -/
theorem no_feasibility_check_witness :
    (mainTrace fileMono44k 1).head? = some (Event.createI2sDriver i2s_config) ∧
    Event.txEnable ∈ mainTrace fileMono44k 1 :=
  no_feasibility_check fileMono44k 1
    ⟨riffTag, 44, waveTag, fmtTag, 16, 1, 1, 44100, 88200, 2, 16, dataTag, 4⟩
    (by decide)

/-! ## Claim C4: the sink configuration ignores the header -/

/-- Counterexample to C4 as stated: for a validated header declaring
8000 Hz, the sink is configured with the constant 44100 Hz config — not
with the header's triple — so the configured sample rate is not a
function of the parsed header. -/
theorem sink_config_ignores_header :
    Option.map WavHeader.sampling_rate
        (decodeHeader (fileRead file8000 0 BYTES_IN_HEADER).1) = some 8000 ∧
    Event.createI2sDriver i2s_config ∈ mainTrace file8000 1 ∧
    i2s_config.sample_rate_hz = 44100 ∧
    Event.createI2sDriver ⟨8000, 16, SlotMode.Mono⟩ ∉ mainTrace file8000 1 ∧
    ¬(44100 = 8000) := by decide

/-- Claim C4 (amended): the sink is configured exactly once per run, as
the first action, with the compile-time constant triple (44100 Hz,
16 bits, mono) — no value from the parsed header reaches the
configuration; `tx_enable` is only issued later (after the header read
and seeks). -/
theorem sink_config_constant (file : List Nat) (fuel : Nat) :
    (mainTrace file fuel).head? = some (Event.createI2sDriver i2s_config) ∧
    (∀ cfg, Event.createI2sDriver cfg ∈ mainTrace file fuel → cfg = i2s_config) ∧
    i2s_config = ⟨SAMPLE_RATE_HZ, 16, SlotMode.Mono⟩ := by
  refine ⟨rfl, ?_, rfl⟩
  intro cfg hmem
  rcases hdec : decodeHeader (fileRead file 0 BYTES_IN_HEADER).1 with _ | h
  · simp only [mainTrace, hdec] at hmem
    simpa using hmem
  · simp only [mainTrace, hdec] at hmem
    by_cases hb : (runLoopFile file h.size_of_data fuel BYTES_IN_HEADER 0).2.2 <;>
      simp [hb, List.mem_cons, List.mem_append, List.mem_flatMap] at hmem <;>
        exact hmem

/-- Witness for the amended C4, at the empty file (whose all-defaulted
header still decodes). -/
theorem sink_config_constant_witness :
    Event.createI2sDriver i2s_config ∈ mainTrace [] 0 ∧ i2s_config = i2s_config :=
  ⟨by decide, (sink_config_constant [] 0).2.1 i2s_config (by decide)⟩

/-! ## Claim C10: the timing read does not affect the stream -/

/-- Claim C10: the 1024-byte timing read between the header read and
playback has no effect on the streamed bytes: the cursor is re-seeked to
absolute offset 44 immediately before the loop, so the streamed chunks
are exactly those of the loop started at offset 44 — and in particular
the first streamed chunk is always the 1024 bytes at file offset 44. -/
theorem timing_read_no_effect (file : List Nat) (fuel : Nat) :
    playbackWrites file fuel =
      (runLoopFile file (u32leAt (file.take BYTES_IN_HEADER) 40) fuel
        BYTES_IN_HEADER 0).1 ∧
    (∀ c l, playbackWrites file fuel = c :: l →
      c = slice file BYTES_IN_HEADER CHUNK_SIZE) := by
  constructor
  · rfl
  · intro c l hcl
    simp only [playbackWrites, fileRead, List.drop_zero] at hcl
    by_cases hS : (0 : Nat) < u32leAt (file.take BYTES_IN_HEADER) 40
    · cases fuel with
      | zero =>
        rw [runLoopFile, if_pos hS] at hcl
        exact absurd hcl (by simp)
      | succ fuel2 =>
        rw [runLoopFile, if_pos hS] at hcl
        exact ((List.cons.inj hcl).1).symm
    · cases fuel with
      | zero =>
        rw [runLoopFile, if_neg hS] at hcl
        exact absurd hcl (by simp)
      | succ fuel2 =>
        rw [runLoopFile, if_neg hS] at hcl
        exact absurd hcl (by simp)

/-- Witness for C10, at a file with 2 data bytes. -/
theorem timing_read_no_effect_witness :
    playbackWrites fileTwoBytes 1 = [[11, 22]] ∧
    ([11, 22] : List Nat) = slice fileTwoBytes BYTES_IN_HEADER CHUNK_SIZE :=
  ⟨by decide, (timing_read_no_effect fileTwoBytes 1).2 [11, 22] [] (by decide)⟩

end PlayWav
